import Mathlib

/-!
Shallow embedding of the image-attachment pipeline of the `happy` repository:
the constraints table and data-URL helpers (`src/sources/utils/imageUtils.ts`),
the native resize/processing path (`src/sources/utils/imageUtils.native.ts`),
and the two picker hooks' `processAssets` loops (`src/unnamed/part_001`,
`src/unnamed/part_002`).

JavaScript strings are modelled as `List Char` (`Str`); the opaque platform
codecs (canvas, expo-image-manipulator, expo-file-system) are modelled as
explicit environments whose fields stand for the asynchronous platform calls,
and promise rejection / thrown errors are modelled with `Except`.
-/

/-- JavaScript strings, modelled as lists of characters. -/
abbrev Str := List Char

/-- A Lean string literal as a `Str`. -/
def str (s : String) : Str := s.data

/-- `Math.round(num / den)` for non-negative integers (JS rounds halves up). -/
def jsRound (num den : Nat) : Nat := (2 * num + den) / (2 * den)

/-- `Math.ceil((n * 3) / 4)`: the estimated decoded byte count of an `n`-character
base64 payload, as computed throughout the repository. -/
def jsCeil3Over4 (n : Nat) : Nat := (n * 3 + 3) / 4

/-- `Nat.repr` of a number as a `Str`, for building the error messages. -/
def natStr (n : Nat) : Str := (Nat.repr n).data

/-- `IMAGE_CONSTRAINTS.MAX_FILE_SIZE` (1MB) from `src/unnamed/part_000`. -/
def MAX_FILE_SIZE : Nat := 1 * 1024 * 1024

/-- `IMAGE_CONSTRAINTS.MAX_DIMENSION` from `src/unnamed/part_000`. -/
def MAX_DIMENSION : Nat := 1024

/-- `IMAGE_CONSTRAINTS.MAX_IMAGES_PER_MESSAGE` from `src/unnamed/part_000`. -/
def MAX_IMAGES_PER_MESSAGE : Nat := 5

/-- `IMAGE_CONSTRAINTS.SUPPORTED_TYPES` from `src/unnamed/part_000`. -/
def SUPPORTED_TYPES : List Str :=
  [str "image/png", str "image/jpeg", str "image/gif", str "image/webp"]

/-- The `AttachedImage` record of `src/unnamed/part_000`.  The TypeScript type
narrows `mimeType` to four literals, but the code builds it through unchecked
casts (`as AttachedImage['mimeType']`), so the field is modelled as `Str`. -/
structure AttachedImage where
  id : Str
  base64 : Str
  mimeType : Str
  width : Option Nat
  height : Option Nat
  fileName : Option Str
  fileSize : Option Nat
deriving Repr, DecidableEq

/-- `String.prototype.split(',')` of JavaScript on a character list. -/
def splitComma : List Char → List (List Char)
  | [] => [[]]
  | c :: cs =>
    if c = ',' then [] :: splitComma cs
    else
      match splitComma cs with
      | [] => [[c]]
      | g :: gs => (c :: g) :: gs

/-- `extractBase64Data` from `src/sources/utils/imageUtils.ts`:
`parts = dataUrl.split(','); parts.length > 1 ? parts[1] : dataUrl`. -/
def extractBase64Data (dataUrl : Str) : Str :=
  match splitComma dataUrl with
  | _ :: second :: _ => second
  | _ => dataUrl

/-- `extractMimeType` from `src/sources/utils/imageUtils.ts`: the regex
`/^data:([^;]+);/` matches when the string starts with `data:` followed by at
least one non-`;` character and then a `;`; otherwise the default is
`image/png`. -/
def extractMimeType (dataUrl : Str) : Str :=
  if (str "data:").isPrefixOf dataUrl then
    let rest := dataUrl.drop 5
    let before := rest.takeWhile (fun c => c ≠ ';')
    if 0 < before.length ∧ before.length < rest.length then before
    else str "image/png"
  else str "image/png"

/-- `isSupportedImageType` from `src/sources/utils/imageUtils.ts`. -/
def isSupportedImageType (mimeType : Str) : Bool :=
  SUPPORTED_TYPES.contains mimeType

/-- `isValidImageSize` from `src/sources/utils/imageUtils.ts`. -/
def isValidImageSize (sizeInBytes : Nat) : Bool :=
  sizeInBytes ≤ MAX_FILE_SIZE

/-- The data-URL built as `` `data:${mime};base64,${body}` ``. -/
def mkDataUrl (mime body : Str) : Str :=
  str "data:" ++ mime ++ str ";base64," ++ body

/-- `getMimeTypeFromUri` from `src/sources/utils/imageUtils.native.ts`:
data URLs go through `extractMimeType`; file URLs are classified by extension
(lower-cased), defaulting to `image/jpeg`. -/
def getMimeTypeFromUri (uri : Str) : Str :=
  if (str "data:").isPrefixOf uri then extractMimeType uri
  else
    let lowerUri := uri.map Char.toLower
    if (str ".png").isSuffixOf lowerUri then str "image/png"
    else if (str ".gif").isSuffixOf lowerUri then str "image/gif"
    else if (str ".webp").isSuffixOf lowerUri then str "image/webp"
    else str "image/jpeg"

/-- The local `getMimeTypeFromUri` helper of the hook in `src/unnamed/part_001`
(it has no `data:` branch). -/
def getMimeTypeFromUriHook (uri : Str) : Str :=
  let lowerUri := uri.map Char.toLower
  if (str ".png").isSuffixOf lowerUri then str "image/png"
  else if (str ".gif").isSuffixOf lowerUri then str "image/gif"
  else if (str ".webp").isSuffixOf lowerUri then str "image/webp"
  else str "image/jpeg"

/-- The result record of `resizeImageWeb`. -/
structure WebResized where
  base64 : Str
  width : Nat
  height : Nat
deriving Repr, DecidableEq

/-- The browser environment `resizeImageWeb` runs against: `decode` is the
`Image` element's load (dimensions, or the `onerror` event), `ctxOk` whether
`canvas.getContext('2d')` returns a context, and `canvasEncode` the body of the
data URL `canvas.toDataURL('image/jpeg', quality)` produces from the drawn
source at the given width, height and quality (in percent). -/
structure WebEnv where
  decode : Str → Except Unit (Nat × Nat)
  ctxOk : Bool
  canvasEncode : Str → Nat → Nat → Nat → Str

/-- `resizeImageWeb` from `src/sources/utils/imageUtils.ts`.  Within-bounds
images resolve with the input string itself; otherwise the longer side is set
to `maxDimension`, the shorter side to `Math.round`, and the canvas re-encodes
to JPEG at quality 0.8. -/
def resizeImageWeb (env : WebEnv) (base64 : Str)
    (maxDimension : Nat := MAX_DIMENSION) : Except Str WebResized :=
  match env.decode base64 with
  | .error _ => .error (str "Failed to load image")
  | .ok (width, height) =>
    if width ≤ maxDimension ∧ height ≤ maxDimension then
      .ok ⟨base64, width, height⟩
    else
      let dims :=
        if height < width then (maxDimension, jsRound (height * maxDimension) width)
        else (jsRound (width * maxDimension) height, maxDimension)
      if env.ctxOk then
        .ok ⟨mkDataUrl (str "image/jpeg") (env.canvasEncode base64 dims.1 dims.2 80),
             dims.1, dims.2⟩
      else .error (str "Failed to get canvas context")

/-- `ImageManipulator.SaveFormat`. -/
inductive SaveFormat
  | png
  | jpeg
deriving Repr, DecidableEq

/-- The native environment `resizeImageNative` runs against: `getInfo` is
`manipulateAsync(uri, [], { base64: false })` (dimensions, or a thrown error),
and `encode` is `manipulateAsync` with an optional resize action, a save
format and a compress value (in percent), producing the raw base64 body.
The manipulator honours a requested resize exactly, so the result record's
dimensions are the requested ones. -/
structure NativeEnv where
  getInfo : Str → Except Str (Nat × Nat)
  encode : Str → Option (Nat × Nat) → SaveFormat → Nat → Except Str Str

/-- The result record of `resizeImageNative`. -/
structure NativeResized where
  base64 : Str
  width : Nat
  height : Nat
  mimeType : Str
deriving Repr, DecidableEq

/-- The `format` local of `resizeImageNative` (`src/sources/utils/imageUtils.native.ts`):
PNG exactly when the source MIME, derived from the URI, is `image/png`. -/
def nativeFormat (uri : Str) : SaveFormat :=
  if getMimeTypeFromUri uri = str "image/png" then SaveFormat.png else SaveFormat.jpeg

/-- The `compress` option of the two `manipulateAsync` calls:
`format === SaveFormat.JPEG ? 0.85 : 1`, in percent. -/
def nativeCompress (uri : Str) : Nat :=
  if nativeFormat uri = SaveFormat.jpeg then 85 else 100

/-- The `outputMimeType` local of `resizeImageNative`. -/
def nativeOutMime (uri : Str) : Str :=
  if nativeFormat uri = SaveFormat.png then str "image/png" else str "image/jpeg"

/-- `resizeImageNative` from `src/sources/utils/imageUtils.native.ts`:
within-bounds images are still re-encoded; otherwise the longer side is set to
`maxDimension` and the shorter side to `Math.round`; the output data URL
carries the output MIME. -/
def resizeImageNative (env : NativeEnv) (uri : Str)
    (maxDimension : Nat := MAX_DIMENSION) : Except Str NativeResized :=
  let format := nativeFormat uri
  let compress := nativeCompress uri
  let outputMimeType := nativeOutMime uri
  match env.getInfo uri with
  | .error e => .error e
  | .ok (origWidth, origHeight) =>
    if origWidth ≤ maxDimension ∧ origHeight ≤ maxDimension then
      match env.encode uri none format compress with
      | .error e => .error e
      | .ok body => .ok ⟨mkDataUrl outputMimeType body, origWidth, origHeight, outputMimeType⟩
    else
      let dims :=
        if origHeight < origWidth then
          (maxDimension, jsRound (origHeight * maxDimension) origWidth)
        else (jsRound (origWidth * maxDimension) origHeight, maxDimension)
      match env.encode uri (some dims) format compress with
      | .error e => .error e
      | .ok body => .ok ⟨mkDataUrl outputMimeType body, dims.1, dims.2, outputMimeType⟩

/-- `processImageForAttachment` from `src/sources/utils/imageUtils.ts`:
reject unsupported MIME first; on web resize via `resizeImageWeb`, recompute
the size from the resized payload and validate it; off web only estimate the
size of the incoming payload.  `newId` stands for the `generateImageId()`
call (timestamp + random suffix), the thrown/rejected errors of the `try`
block surface as the caught error message. -/
def processImageForAttachment (env : WebEnv) (platformIsWeb : Bool) (newId : Str)
    (base64 : Str) (fileName : Option Str) : Except Str AttachedImage :=
  let mimeType := extractMimeType base64
  if ¬ isSupportedImageType mimeType then
    .error (str "Unsupported image type: " ++ mimeType)
  else if platformIsWeb then
    match resizeImageWeb env base64 MAX_DIMENSION with
    | .error e => .error e
    | .ok resized =>
      let actualBase64Data := extractBase64Data resized.base64
      let actualSize := jsCeil3Over4 actualBase64Data.length
      if ¬ isValidImageSize actualSize then
        .error (str "Image too large after compression: " ++
          natStr (jsRound actualSize 1024) ++ str "KB (max " ++
          natStr (jsRound MAX_FILE_SIZE 1024) ++ str "KB)")
      else
        .ok ⟨newId, resized.base64, str "image/jpeg", some resized.width,
          some resized.height, fileName, some actualSize⟩
  else
    let base64Data := extractBase64Data base64
    let estimatedSize := jsCeil3Over4 base64Data.length
    if ¬ isValidImageSize estimatedSize then
      .error (str "Image too large: " ++ natStr (jsRound estimatedSize 1024) ++
        str "KB (max " ++ natStr (jsRound MAX_FILE_SIZE 1024) ++ str "KB)")
    else
      .ok ⟨newId, base64, mimeType, none, none, fileName, some estimatedSize⟩

/-- `processImageForAttachmentNative` from `src/sources/utils/imageUtils.native.ts`:
resize first, then check the *resized* MIME, then estimate and validate the
size; the size error hardcodes `max 5MB` in its text. -/
def processImageForAttachmentNative (env : NativeEnv) (newId : Str) (uri : Str)
    (fileName : Option Str) : Except Str AttachedImage :=
  match resizeImageNative env uri MAX_DIMENSION with
  | .error e => .error e
  | .ok resized =>
    if ¬ isSupportedImageType resized.mimeType then
      .error (str "Unsupported image type: " ++ resized.mimeType)
    else
      let base64Data := extractBase64Data resized.base64
      let estimatedSize := jsCeil3Over4 base64Data.length
      if ¬ isValidImageSize estimatedSize then
        .error (str "Image too large: " ++
          natStr (jsRound estimatedSize (1024 * 1024)) ++ str "MB (max 5MB)")
      else
        .ok ⟨newId, resized.base64, resized.mimeType, some resized.width,
          some resized.height, fileName, some estimatedSize⟩

/-- `createThumbnail` from `src/sources/utils/imageUtils.ts`: on non-web
platforms the original is returned; on web `resizeImageWeb` is awaited with no
`try`/`catch`, so its rejection propagates. -/
def createThumbnail (env : WebEnv) (platformIsWeb : Bool) (base64 : Str)
    (maxDimension : Nat := 200) : Except Str Str :=
  if ¬ platformIsWeb then .ok base64
  else
    match resizeImageWeb env base64 maxDimension with
    | .error e => .error e
    | .ok result => .ok result.base64

/-- `createThumbnailNative` from `src/sources/utils/imageUtils.native.ts`:
any error from `resizeImageNative` is caught and the original URI returned. -/
def createThumbnailNative (env : NativeEnv) (uri : Str)
    (maxDimension : Nat := 200) : Str :=
  match resizeImageNative env uri maxDimension with
  | .error _ => uri
  | .ok result => result.base64

/-- An `ImagePicker.ImagePickerAsset` as the hooks consume it: URI, an optional
inline base64 payload, pixel dimensions, optional filename and MIME hint. -/
structure PickerAsset where
  uri : Str
  base64 : Option Str
  width : Nat
  height : Nat
  fileName : Option Str
  mimeType : Option Str
deriving Repr, DecidableEq

/-- `expo-file-system`'s `readAsStringAsync(uri, { encoding: Base64 })`. -/
structure FileEnv where
  readAsBase64 : Str → Except Str Str

/-- JavaScript `a || b` on an optional string (`undefined` and `''` are falsy). -/
def jsOrStr : Option Str → Str → Str
  | some s, fallback => if s.isEmpty then fallback else s
  | none, fallback => fallback

/-- One iteration of `processAssets` in the hook of `src/unnamed/part_001`:
take the picker's base64 (or read the file), derive the MIME from the asset
hint or the URI, build the data URL, estimate the size, reject over-size
payloads, and otherwise record the asset's own dimensions. -/
def processAssetV1 (fenv : FileEnv) (newId : Str) (asset : PickerAsset) :
    Except Str AttachedImage :=
  let b64res :=
    match asset.base64 with
    | some b => if b.isEmpty then fenv.readAsBase64 asset.uri else .ok b
    | none => fenv.readAsBase64 asset.uri
  match b64res with
  | .error e => .error e
  | .ok base64Data =>
    let mimeType := jsOrStr asset.mimeType (getMimeTypeFromUriHook asset.uri)
    let dataUrl := mkDataUrl mimeType base64Data
    let estimatedSize := jsCeil3Over4 base64Data.length
    if estimatedSize > MAX_FILE_SIZE then
      .error (str "Image too large: " ++
        natStr (jsRound estimatedSize (1024 * 1024)) ++ str "MB (max 5MB)")
    else
      .ok ⟨newId, dataUrl, mimeType, some asset.width, some asset.height,
        asset.fileName, some estimatedSize⟩

/-- `processAssets` of `src/unnamed/part_001`: per-asset failures are reported
via `onError` and skipped; successes accumulate in order.  `ids` supplies the
`generateImageId()` result of each iteration. -/
def processAssetsV1 (fenv : FileEnv) (ids : Nat → Str)
    (assets : List PickerAsset) : List AttachedImage :=
  (assets.enum).filterMap fun p => (processAssetV1 fenv (ids p.1) p.2).toOption

/-- One iteration of `processAssets` in the hook of `src/unnamed/part_002`:
run `processImageForAttachmentNative`, skip errors, and override the record's
dimensions with the asset's own (truthy) width and height. -/
def processAssetV2 (env : NativeEnv) (newId : Str) (asset : PickerAsset) :
    Option AttachedImage :=
  match processImageForAttachmentNative env newId asset.uri asset.fileName with
  | .error _ => none
  | .ok processed =>
    if asset.width ≠ 0 ∧ asset.height ≠ 0 then
      some { processed with width := some asset.width, height := some asset.height }
    else some processed

/-- `processAssets` of `src/unnamed/part_002`, over a list of assets. -/
def processAssetsV2 (env : NativeEnv) (ids : Nat → Str)
    (assets : List PickerAsset) : List AttachedImage :=
  (assets.enum).filterMap fun p => processAssetV2 env (ids p.1) p.2

/-! ## Helper lemmas -/

theorem splitComma_no_comma (l : List Char) (h : ',' ∉ l) : splitComma l = [l] := by
  induction l with
  | nil => rfl
  | cons c cs ih =>
    simp only [List.mem_cons, not_or] at h
    rw [splitComma, if_neg (fun hc => h.1 hc.symm), ih h.2]

theorem splitComma_append (l₁ l₂ : List Char) (h : ',' ∉ l₁) :
    splitComma (l₁ ++ ',' :: l₂) = l₁ :: splitComma l₂ := by
  induction l₁ with
  | nil => simp [splitComma]
  | cons c cs ih =>
    simp only [List.mem_cons, not_or] at h
    rw [List.cons_append, splitComma, if_neg (fun hc => h.1 hc.symm), ih h.2]

theorem splitComma_head (l : List Char) :
    ∃ gs, splitComma l = l.takeWhile (fun c => c ≠ ',') :: gs := by
  induction l with
  | nil => exact ⟨[], rfl⟩
  | cons c cs ih =>
    obtain ⟨gs, hgs⟩ := ih
    by_cases hc : c = ','
    · subst hc
      exact ⟨splitComma cs, by simp [splitComma]⟩
    · refine ⟨gs, ?_⟩
      rw [splitComma, if_neg hc, hgs]
      simp [List.takeWhile, hc]

theorem extractBase64Data_no_comma (l : Str) (h : ',' ∉ l) :
    extractBase64Data l = l := by
  rw [extractBase64Data, splitComma_no_comma l h]

theorem extractBase64Data_append (l₁ l₂ : Str) (h : ',' ∉ l₁) :
    extractBase64Data (l₁ ++ ',' :: l₂) = l₂.takeWhile (fun c => c ≠ ',') := by
  obtain ⟨gs, hgs⟩ := splitComma_head l₂
  rw [extractBase64Data, splitComma_append l₁ l₂ h, hgs]

theorem mkDataUrl_eq (mime body : Str) :
    mkDataUrl mime body = (str "data:" ++ mime ++ str ";base64") ++ ',' :: body := by
  show str "data:" ++ mime ++ str ";base64," ++ body = _
  have : str ";base64," = str ";base64" ++ [','] := by decide
  rw [this]
  simp

theorem extractBase64Data_mkDataUrl (mime body : Str) (hm : ',' ∉ mime)
    (hb : ',' ∉ body) : extractBase64Data (mkDataUrl mime body) = body := by
  rw [mkDataUrl_eq, extractBase64Data_append, List.takeWhile_eq_self_iff.mpr]
  · intro c hc
    simp only [decide_eq_true_eq]
    exact fun h => hb (h ▸ hc)
  · intro hmem
    rcases List.mem_append.mp hmem with h | h
    · rcases List.mem_append.mp h with h | h
      · revert h; decide
      · exact hm h
    · revert h; decide

theorem jsRound_mul_le (n d m : Nat) (hnd : n ≤ d) (hd : 0 < d) :
    jsRound (n * m) d ≤ m := by
  rw [jsRound]
  have h1 : n * m ≤ d * m := Nat.mul_le_mul_right m hnd
  have h2 : 2 * (n * m) + d < (m + 1) * (2 * d) := by nlinarith
  have := (Nat.div_lt_iff_lt_mul (by omega : 0 < 2 * d)).mpr h2
  omega

theorem resizeImageWeb_dims_le (env : WebEnv) (base64 : Str) (maxD : Nat)
    (r : WebResized) (h : resizeImageWeb env base64 maxD = .ok r) :
    r.width ≤ maxD ∧ r.height ≤ maxD := by
  rw [resizeImageWeb] at h
  cases hd : env.decode base64 with
  | error e => rw [hd] at h; exact absurd h (by simp)
  | ok wh =>
    obtain ⟨w, hgt⟩ := wh
    rw [hd] at h
    simp only at h
    by_cases hin : w ≤ maxD ∧ hgt ≤ maxD
    · rw [if_pos hin] at h
      cases h
      exact hin
    · rw [if_neg hin] at h
      by_cases hctx : env.ctxOk = true
      · rw [if_pos hctx] at h
        cases h
        by_cases hlt : hgt < w
        · simp only [if_pos hlt]
          refine ⟨le_refl _, jsRound_mul_le _ _ _ (le_of_lt hlt) (by omega)⟩
        · simp only [if_neg hlt]
          push_neg at hlt hin
          have hh : 0 < hgt := by
            by_contra hz
            push_neg at hz
            interval_cases hgt
            omega
          exact ⟨jsRound_mul_le _ _ _ hlt hh, le_refl _⟩
      · rw [if_neg hctx] at h
        exact absurd h (by simp)

theorem resizeDims_le (w h maxD : Nat) (hin : ¬(w ≤ maxD ∧ h ≤ maxD)) :
    (if h < w then (maxD, jsRound (h * maxD) w)
     else (jsRound (w * maxD) h, maxD)).1 ≤ maxD ∧
    (if h < w then (maxD, jsRound (h * maxD) w)
     else (jsRound (w * maxD) h, maxD)).2 ≤ maxD := by
  by_cases hlt : h < w
  · simp only [if_pos hlt]
    exact ⟨le_refl _, jsRound_mul_le _ _ _ (le_of_lt hlt) (by omega)⟩
  · simp only [if_neg hlt]
    have hwh : w ≤ h := by omega
    have hh : 0 < h := by omega
    exact ⟨jsRound_mul_le _ _ _ hwh hh, le_refl _⟩

theorem resizeImageNative_dims_le (env : NativeEnv) (uri : Str) (maxD : Nat)
    (r : NativeResized) (h : resizeImageNative env uri maxD = .ok r) :
    r.width ≤ maxD ∧ r.height ≤ maxD := by
  simp only [resizeImageNative] at h
  split at h
  · exact absurd h (by simp)
  · split at h
    · next hin =>
      split at h
      · exact absurd h (by simp)
      · cases h
        exact hin
    · next hin =>
      split at h
      · exact absurd h (by simp)
      · cases h
        exact resizeDims_le _ _ _ hin

theorem nativeOutMime_cases (uri : Str) :
    nativeOutMime uri = str "image/png" ∨ nativeOutMime uri = str "image/jpeg" := by
  rw [nativeOutMime]
  split
  · exact Or.inl rfl
  · exact Or.inr rfl

theorem nativeOutMime_supported (uri : Str) :
    isSupportedImageType (nativeOutMime uri) = true := by
  rcases nativeOutMime_cases uri with h | h <;> rw [h] <;> decide

theorem resizeImageNative_mimeType (env : NativeEnv) (uri : Str) (maxD : Nat)
    (r : NativeResized) (h : resizeImageNative env uri maxD = .ok r) :
    r.mimeType = nativeOutMime uri := by
  simp only [resizeImageNative] at h
  split at h
  · exact absurd h (by simp)
  · split at h <;> split at h
    · exact absurd h (by simp)
    · cases h; rfl
    · exact absurd h (by simp)
    · cases h; rfl

theorem resizeImageWeb_dims_eq (env : WebEnv) (base64 : Str) (maxD w h : Nat)
    (r : WebResized) (hdec : env.decode base64 = .ok (w, h))
    (hok : resizeImageWeb env base64 maxD = .ok r) :
    (r.width, r.height) =
      if w ≤ maxD ∧ h ≤ maxD then (w, h)
      else if h < w then (maxD, jsRound (h * maxD) w)
      else (jsRound (w * maxD) h, maxD) := by
  rw [resizeImageWeb, hdec] at hok
  simp only at hok
  split at hok
  · next hin =>
    cases hok
    rw [if_pos hin]
  · next hin =>
    rw [if_neg hin]
    split at hok
    · cases hok
      split <;> rfl
    · exact absurd hok (by simp)

theorem resizeImageNative_dims_eq (env : NativeEnv) (uri : Str) (maxD w h : Nat)
    (r : NativeResized) (hinfo : env.getInfo uri = .ok (w, h))
    (hok : resizeImageNative env uri maxD = .ok r) :
    (r.width, r.height) =
      if w ≤ maxD ∧ h ≤ maxD then (w, h)
      else if h < w then (maxD, jsRound (h * maxD) w)
      else (jsRound (w * maxD) h, maxD) := by
  simp only [resizeImageNative, hinfo] at hok
  split at hok
  · next hin =>
    rw [if_pos hin]
    split at hok
    · exact absurd hok (by simp)
    · cases hok; rfl
  · next hin =>
    rw [if_neg hin]
    split at hok
    · exact absurd hok (by simp)
    · cases hok
      split <;> rfl

theorem processWeb_ok_inv (env : WebEnv) (platformIsWeb : Bool) (newId base64 : Str)
    (fileName : Option Str) (img : AttachedImage)
    (h : processImageForAttachment env platformIsWeb newId base64 fileName = .ok img) :
    isSupportedImageType img.mimeType = true ∧
    (∀ s, img.fileSize = some s → s ≤ MAX_FILE_SIZE) ∧
    (∀ w, img.width = some w → w ≤ MAX_DIMENSION) ∧
    (∀ ht, img.height = some ht → ht ≤ MAX_DIMENSION) := by
  have hjpeg : isSupportedImageType (str "image/jpeg") = true := by decide
  simp only [processImageForAttachment] at h
  split at h
  · exact absurd h (by simp)
  · next hsupp =>
    rw [not_not] at hsupp
    split at h
    · split at h
      · exact absurd h (by simp)
      · next r hres =>
        split at h
        · exact absurd h (by simp)
        · next hsize =>
          rw [not_not, isValidImageSize, decide_eq_true_eq] at hsize
          cases h
          have hd := resizeImageWeb_dims_le env base64 MAX_DIMENSION r hres
          refine ⟨hjpeg, ?_, ?_, ?_⟩
          · intro s hs
            cases hs
            exact hsize
          · intro w hw
            cases hw
            exact hd.1
          · intro ht hht
            cases hht
            exact hd.2
    · split at h
      · exact absurd h (by simp)
      · next hsize =>
        rw [not_not, isValidImageSize, decide_eq_true_eq] at hsize
        cases h
        refine ⟨hsupp, ?_, ?_, ?_⟩
        · intro s hs
          cases hs
          exact hsize
        · intro w hw
          exact Option.noConfusion hw
        · intro ht hht
          exact Option.noConfusion hht

theorem processNative_ok_inv (env : NativeEnv) (newId uri : Str)
    (fileName : Option Str) (img : AttachedImage)
    (h : processImageForAttachmentNative env newId uri fileName = .ok img) :
    isSupportedImageType img.mimeType = true ∧
    (∀ s, img.fileSize = some s → s ≤ MAX_FILE_SIZE) ∧
    (∀ w, img.width = some w → w ≤ MAX_DIMENSION) ∧
    (∀ ht, img.height = some ht → ht ≤ MAX_DIMENSION) := by
  simp only [processImageForAttachmentNative] at h
  split at h
  · exact absurd h (by simp)
  · next r hres =>
    split at h
    · exact absurd h (by simp)
    · next hsupp =>
      rw [not_not] at hsupp
      split at h
      · exact absurd h (by simp)
      · next hsize =>
        rw [not_not, isValidImageSize, decide_eq_true_eq] at hsize
        cases h
        have hd := resizeImageNative_dims_le env uri MAX_DIMENSION r hres
        refine ⟨hsupp, ?_, ?_, ?_⟩
        · intro s hs
          cases hs
          exact hsize
        · intro w hw
          cases hw
          exact hd.1
        · intro ht hht
          cases hht
          exact hd.2

theorem processAssetV1_ok_fileSize (fenv : FileEnv) (newId : Str)
    (asset : PickerAsset) (img : AttachedImage)
    (h : processAssetV1 fenv newId asset = .ok img) :
    ∀ s, img.fileSize = some s → s ≤ MAX_FILE_SIZE := by
  simp only [processAssetV1] at h
  split at h
  · exact absurd h (by simp)
  · split at h
    · exact absurd h (by simp)
    · next hsize =>
      rw [not_lt] at hsize
      cases h
      intro s hs
      cases hs
      exact hsize

theorem processAssetV2_some_inv (env : NativeEnv) (newId : Str)
    (asset : PickerAsset) (img : AttachedImage)
    (h : processAssetV2 env newId asset = some img) :
    isSupportedImageType img.mimeType = true ∧
    (∀ s, img.fileSize = some s → s ≤ MAX_FILE_SIZE) := by
  simp only [processAssetV2] at h
  split at h
  · exact absurd h (by simp)
  · next processed hproc =>
    have hp := processNative_ok_inv env newId asset.uri asset.fileName processed hproc
    split at h <;> cases h
    · exact ⟨hp.1, hp.2.1⟩
    · exact ⟨hp.1, hp.2.1⟩

theorem isPrefixOf_append_self (l₁ l₂ : List Char) :
    l₁.isPrefixOf (l₁ ++ l₂) = true := by
  induction l₁ with
  | nil => simp [List.isPrefixOf]
  | cons c cs ih => simp [List.isPrefixOf]

theorem takeWhile_append_stop (p : Char → Bool) (l₁ l₂ : List Char) (c0 : Char)
    (h : ∀ c ∈ l₁, p c = true) (hc : p c0 = false) :
    (l₁ ++ c0 :: l₂).takeWhile p = l₁ := by
  induction l₁ with
  | nil => simp [List.takeWhile, hc]
  | cons c cs ih =>
    have hcs : ∀ x ∈ cs, p x = true := fun x hx => h x (List.mem_cons_of_mem c hx)
    simp [List.takeWhile, h c (List.mem_cons_self c cs), ih hcs]

theorem extractMimeType_mkDataUrl (mime body : Str) (h1 : mime ≠ [])
    (h2 : ';' ∉ mime) : extractMimeType (mkDataUrl mime body) = mime := by
  have hsplit : mkDataUrl mime body =
      str "data:" ++ (mime ++ (';' :: (str "base64," ++ body))) := by
    show str "data:" ++ mime ++ str ";base64," ++ body = _
    have : str ";base64," = ';' :: str "base64," := by decide
    rw [this]
    simp
  rw [extractMimeType, hsplit]
  rw [if_pos (isPrefixOf_append_self (str "data:") _)]
  have hdrop : (str "data:" ++ (mime ++ (';' :: (str "base64," ++ body)))).drop 5 =
      mime ++ (';' :: (str "base64," ++ body)) := by
    have h5 : (5 : Nat) = (str "data:").length := by decide
    rw [h5, List.drop_left]
  rw [hdrop]
  have htake : (mime ++ (';' :: (str "base64," ++ body))).takeWhile
      (fun c => decide (c ≠ ';')) = mime := by
    refine takeWhile_append_stop _ _ _ _ (fun c hc => ?_) (by decide)
    simp only [decide_eq_true_eq]
    exact fun hsemi => h2 (hsemi ▸ hc)
  simp only [htake]
  rw [if_pos]
  constructor
  · simpa using List.length_pos.mpr h1
  · simp

theorem sizeMsg_ne_unsupportedMsg (a c b : Str) :
    str "Image too large: " ++ a ++ c ≠ str "Unsupported image type: " ++ b := by
  have h1 : str "Image too large: " = 'I' :: str "mage too large: " := by decide
  have h2 : str "Unsupported image type: " = 'U' :: str "nsupported image type: " := by
    decide
  rw [h1, h2, List.cons_append, List.cons_append, List.cons_append]
  intro h
  rw [List.cons.injEq] at h
  exact absurd h.1 (by decide)

/-! ## Concrete environments for witnesses and counterexamples -/

/-- A browser whose image decodes to 500×400 (already within the 1024 bound). -/
def webEnvSmall : WebEnv :=
  ⟨fun _ => .ok (500, 400), true, fun _ _ _ _ => str "WEBBODY"⟩

/-- A browser whose image decodes to 2000×1000. -/
def webEnvBig : WebEnv :=
  ⟨fun _ => .ok (2000, 1000), true, fun _ _ _ _ => str "WEBBODY"⟩

/-- A browser whose image decodes to 3000×1500. -/
def webEnvBig2 : WebEnv :=
  ⟨fun _ => .ok (3000, 1500), true, fun _ _ _ _ => str "WEBBODY"⟩

/-- A browser whose image fails to load. -/
def webEnvFail : WebEnv :=
  ⟨fun _ => .error (), true, fun _ _ _ _ => str "WEBBODY"⟩

/-- A native manipulator whose image is 500×400. -/
def nativeEnvSmall : NativeEnv :=
  ⟨fun _ => .ok (500, 400), fun _ _ _ _ => .ok (str "NATBODY")⟩

/-- A native manipulator whose image is 2000×1000. -/
def nativeEnvBig : NativeEnv :=
  ⟨fun _ => .ok (2000, 1000), fun _ _ _ _ => .ok (str "NATBODY")⟩

/-- A native manipulator whose decode throws. -/
def nativeEnvFail : NativeEnv :=
  ⟨fun _ => .error (str "Could not decode"), fun _ _ _ _ => .ok (str "NATBODY")⟩

/-- A native manipulator whose re-encoded base64 body has 2,796,203
characters (estimated decoded size 2,097,153 bytes, about 2MB). -/
def nativeEnvHuge : NativeEnv :=
  ⟨fun _ => .ok (500, 400), fun _ _ _ _ => .ok (List.replicate 2796203 'A')⟩

/-- A 2000×1000 gallery asset with no inline payload. -/
def assetBig : PickerAsset :=
  ⟨str "file:///a.jpg", none, 2000, 1000, none, none⟩

/-! ## Claims -/

/-- Claim C5: for every input whose longer side exceeds the bound, both resize
implementations set the longer side to the bound and the shorter side to
`round(shorter * bound / longer)`. -/
theorem claim5_resize_dims :
    (∀ (env : WebEnv) (base64 : Str) (maxD w h : Nat) (r : WebResized),
      env.decode base64 = .ok (w, h) → maxD < max w h →
      resizeImageWeb env base64 maxD = .ok r →
      (if h < w then r.width = maxD ∧ r.height = jsRound (h * maxD) w
       else r.width = jsRound (w * maxD) h ∧ r.height = maxD)) ∧
    (∀ (env : NativeEnv) (uri : Str) (maxD w h : Nat) (r : NativeResized),
      env.getInfo uri = .ok (w, h) → maxD < max w h →
      resizeImageNative env uri maxD = .ok r →
      (if h < w then r.width = maxD ∧ r.height = jsRound (h * maxD) w
       else r.width = jsRound (w * maxD) h ∧ r.height = maxD)) := by
  constructor
  · intro env base64 maxD w h r hdec hbig hok
    have hin : ¬(w ≤ maxD ∧ h ≤ maxD) := by
      rw [lt_max_iff] at hbig
      omega
    have hd := resizeImageWeb_dims_eq env base64 maxD w h r hdec hok
    rw [if_neg hin] at hd
    by_cases hlt : h < w
    · rw [if_pos hlt] at hd ⊢
      exact ⟨congrArg Prod.fst hd, congrArg Prod.snd hd⟩
    · rw [if_neg hlt] at hd ⊢
      exact ⟨congrArg Prod.fst hd, congrArg Prod.snd hd⟩
  · intro env uri maxD w h r hinfo hbig hok
    have hin : ¬(w ≤ maxD ∧ h ≤ maxD) := by
      rw [lt_max_iff] at hbig
      omega
    have hd := resizeImageNative_dims_eq env uri maxD w h r hinfo hok
    rw [if_neg hin] at hd
    by_cases hlt : h < w
    · rw [if_pos hlt] at hd ⊢
      exact ⟨congrArg Prod.fst hd, congrArg Prod.snd hd⟩
    · rw [if_neg hlt] at hd ⊢
      exact ⟨congrArg Prod.fst hd, congrArg Prod.snd hd⟩

/-- Claim C5 witness: a 2000×1000 input with bound 1024 yields 1024×512 on
both implementations. -/
theorem claim5_witness :
    resizeImageWeb webEnvBig (str "BIG") 1024 =
      .ok ⟨mkDataUrl (str "image/jpeg") (str "WEBBODY"), 1024, 512⟩ ∧
    resizeImageNative nativeEnvBig (str "file:///w.jpg") 1024 =
      .ok ⟨mkDataUrl (str "image/jpeg") (str "NATBODY"), 1024, 512, str "image/jpeg"⟩ ∧
    (1024 : Nat) = 1024 ∧ (512 : Nat) = jsRound (1000 * 1024) 2000 := by
  refine ⟨rfl, rfl, ?_⟩
  have h := claim5_resize_dims.1 webEnvBig (str "BIG") 1024 2000 1000
    ⟨mkDataUrl (str "image/jpeg") (str "WEBBODY"), 1024, 512⟩ rfl (by decide) rfl
  rw [if_pos (by decide : (1000 : Nat) < 2000)] at h
  exact h

/-- Claim C2 counterexample: a 500×400 image with bound 1024 is returned by
`resizeImageWeb` verbatim — the output data URL is the input string itself,
not a re-encoding (the claim asserts both implementations re-encode). -/
theorem claim2_counterexample :
    resizeImageWeb webEnvSmall (str "data:image/jpeg;base64,ORIG") 1024 =
      .ok ⟨str "data:image/jpeg;base64,ORIG", 500, 400⟩ := rfl

/-- Claim C2 amended: when the image is already within bounds,
`resizeImageNative` still re-encodes (one `manipulateAsync` call at compress
0.85 for JPEG sources, 1 for PNG), while `resizeImageWeb` returns the input
string verbatim. -/
theorem claim2_amended :
    (∀ (env : NativeEnv) (uri : Str) (maxD w h : Nat),
      env.getInfo uri = .ok (w, h) → w ≤ maxD → h ≤ maxD →
      resizeImageNative env uri maxD =
        (match env.encode uri none (nativeFormat uri) (nativeCompress uri) with
         | .error e => .error e
         | .ok body => .ok ⟨mkDataUrl (nativeOutMime uri) body, w, h, nativeOutMime uri⟩)) ∧
    (∀ (env : WebEnv) (base64 : Str) (maxD w h : Nat),
      env.decode base64 = .ok (w, h) → w ≤ maxD → h ≤ maxD →
      resizeImageWeb env base64 maxD = .ok ⟨base64, w, h⟩) ∧
    (∀ uri : Str,
      nativeCompress uri =
        if getMimeTypeFromUri uri = str "image/png" then 100 else 85) := by
  refine ⟨?_, ?_, ?_⟩
  · intro env uri maxD w h hinfo hw hh
    simp only [resizeImageNative, hinfo]
    rw [if_pos ⟨hw, hh⟩]
  · intro env base64 maxD w h hdec hw hh
    rw [resizeImageWeb, hdec]
    simp only
    rw [if_pos ⟨hw, hh⟩]
  · intro uri
    rw [nativeCompress, nativeFormat]
    by_cases hp : getMimeTypeFromUri uri = str "image/png"
    · rw [if_pos hp, if_pos hp]
      decide
    · rw [if_neg hp, if_neg hp]
      decide

/-- Claim C2 witness: on a within-bounds 500×400 source, the native path's
result is the fresh encode call's result (compress 85 for a JPEG source) and
the web path returns the input verbatim. -/
theorem claim2_witness :
    resizeImageNative nativeEnvSmall (str "file:///s.jpg") 1024 =
      (match nativeEnvSmall.encode (str "file:///s.jpg") none
          (nativeFormat (str "file:///s.jpg")) (nativeCompress (str "file:///s.jpg")) with
       | .error e => .error e
       | .ok body => .ok ⟨mkDataUrl (nativeOutMime (str "file:///s.jpg")) body, 500, 400,
           nativeOutMime (str "file:///s.jpg")⟩) ∧
    resizeImageWeb webEnvSmall (str "SMALL") 1024 = .ok ⟨str "SMALL", 500, 400⟩ ∧
    nativeCompress (str "file:///s.jpg") = 85 := by
  refine ⟨claim2_amended.1 nativeEnvSmall _ 1024 500 400 rfl (by decide) (by decide),
    claim2_amended.2.1 webEnvSmall _ 1024 500 400 rfl (by decide) (by decide), ?_⟩
  rw [claim2_amended.2.2 (str "file:///s.jpg")]
  decide

/-- Claim C3 counterexample: for the same PNG source (2000×1000, bound 1024)
the native implementation outputs `image/png` while the web implementation
re-encodes to `image/jpeg` — the two implementations do not produce the same
output MIME type. -/
theorem claim3_counterexample :
    resizeImageNative nativeEnvBig (str "data:image/png;base64,P") 1024 =
      .ok ⟨mkDataUrl (str "image/png") (str "NATBODY"), 1024, 512, str "image/png"⟩ ∧
    resizeImageWeb webEnvBig (str "data:image/png;base64,P") 1024 =
      .ok ⟨mkDataUrl (str "image/jpeg") (str "WEBBODY"), 1024, 512⟩ ∧
    extractMimeType (mkDataUrl (str "image/png") (str "NATBODY")) ≠
      extractMimeType (mkDataUrl (str "image/jpeg") (str "WEBBODY")) := by
  refine ⟨rfl, rfl, ?_⟩
  decide

/-- Claim C3 amended: the two implementations agree on the output dimensions
for a source with the same decoded size, but not on the output MIME type or
the re-encode-versus-verbatim behaviour. -/
theorem claim3_amended :
    ∀ (wenv : WebEnv) (nenv : NativeEnv) (base64 uri : Str) (maxD w h : Nat)
      (r1 : WebResized) (r2 : NativeResized),
      wenv.decode base64 = .ok (w, h) → nenv.getInfo uri = .ok (w, h) →
      resizeImageWeb wenv base64 maxD = .ok r1 →
      resizeImageNative nenv uri maxD = .ok r2 →
      r1.width = r2.width ∧ r1.height = r2.height := by
  intro wenv nenv base64 uri maxD w h r1 r2 hdec hinfo h1 h2
  have e1 := resizeImageWeb_dims_eq wenv base64 maxD w h r1 hdec h1
  have e2 := resizeImageNative_dims_eq nenv uri maxD w h r2 hinfo h2
  have e := e1.trans e2.symm
  exact ⟨congrArg Prod.fst e, congrArg Prod.snd e⟩

/-- Claim C3 witness: a 2000×1000 JPEG source produces 1024×512 on both
implementations. -/
theorem claim3_witness :
    resizeImageWeb webEnvBig (str "J") 1024 =
      .ok ⟨mkDataUrl (str "image/jpeg") (str "WEBBODY"), 1024, 512⟩ ∧
    resizeImageNative nativeEnvBig (str "file:///j.jpg") 1024 =
      .ok ⟨mkDataUrl (str "image/jpeg") (str "NATBODY"), 1024, 512, str "image/jpeg"⟩ ∧
    (1024 : Nat) = 1024 ∧ (512 : Nat) = 512 := by
  refine ⟨rfl, rfl, ?_⟩
  exact claim3_amended webEnvBig nativeEnvBig (str "J") (str "file:///j.jpg") 1024
    2000 1000 ⟨mkDataUrl (str "image/jpeg") (str "WEBBODY"), 1024, 512⟩
    ⟨mkDataUrl (str "image/jpeg") (str "NATBODY"), 1024, 512, str "image/jpeg"⟩
    rfl rfl rfl rfl

/-- Claim C4 counterexample: a PNG source of 3000×1500 is re-encoded by
`resizeImageWeb` with `canvas.toDataURL('image/jpeg', 0.8)`: the output MIME
type is `image/jpeg`, not the claimed preserved `image/png`. -/
theorem claim4_counterexample :
    resizeImageWeb webEnvBig2 (str "data:image/png;base64,Q") 1024 =
      .ok ⟨mkDataUrl (str "image/jpeg") (str "WEBBODY"), 1024, 512⟩ ∧
    extractMimeType (str "data:image/png;base64,Q") = str "image/png" ∧
    extractMimeType (mkDataUrl (str "image/jpeg") (str "WEBBODY")) = str "image/jpeg" ∧
    str "image/jpeg" ≠ str "image/png" := by
  exact ⟨rfl, by decide, by decide, by decide⟩

/-- Claim C4 amended: the MIME contract holds for `resizeImageNative` (output
is `image/png` exactly for PNG sources, `image/jpeg` otherwise); on the web
path, whenever a resize actually happens the output is always `image/jpeg`
(PNG included), and a within-bounds source is returned verbatim with its
original MIME. -/
theorem claim4_amended :
    (∀ (env : NativeEnv) (uri : Str) (maxD : Nat) (r : NativeResized),
      resizeImageNative env uri maxD = .ok r →
      r.mimeType = if getMimeTypeFromUri uri = str "image/png"
        then str "image/png" else str "image/jpeg") ∧
    (∀ (env : WebEnv) (base64 : Str) (maxD w h : Nat) (r : WebResized),
      env.decode base64 = .ok (w, h) → ¬(w ≤ maxD ∧ h ≤ maxD) →
      resizeImageWeb env base64 maxD = .ok r →
      extractMimeType r.base64 = str "image/jpeg") ∧
    (∀ (env : WebEnv) (base64 : Str) (maxD w h : Nat) (r : WebResized),
      env.decode base64 = .ok (w, h) → w ≤ maxD ∧ h ≤ maxD →
      resizeImageWeb env base64 maxD = .ok r → r.base64 = base64) := by
  refine ⟨?_, ?_, ?_⟩
  · intro env uri maxD r h
    rw [resizeImageNative_mimeType env uri maxD r h, nativeOutMime, nativeFormat]
    by_cases hp : getMimeTypeFromUri uri = str "image/png"
    · rw [if_pos hp, if_pos hp]
      decide
    · rw [if_neg hp, if_neg hp]
      decide
  · intro env base64 maxD w h r hdec hin hok
    rw [resizeImageWeb, hdec] at hok
    simp only at hok
    rw [if_neg hin] at hok
    split at hok
    · cases hok
      exact extractMimeType_mkDataUrl (str "image/jpeg") _ (by decide) (by decide)
    · exact absurd hok (by simp)
  · intro env base64 maxD w h r hdec hin hok
    rw [resizeImageWeb, hdec] at hok
    simp only at hok
    rw [if_pos hin] at hok
    cases hok
    rfl

/-- Claim C4 witness: a PNG file URI keeps `image/png` through the native
path; a too-wide JPEG web source comes out as `image/jpeg`; a within-bounds
web source keeps its own data URL. -/
theorem claim4_witness :
    (str "image/png" : Str) = (if getMimeTypeFromUri (str "file:///p.png") = str "image/png"
      then str "image/png" else str "image/jpeg") ∧
    extractMimeType (mkDataUrl (str "image/jpeg") (str "WEBBODY")) = str "image/jpeg" ∧
    (str "data:image/gif;base64,G" : Str) = str "data:image/gif;base64,G" := by
  refine ⟨?_, ?_, ?_⟩
  · have h := claim4_amended.1 nativeEnvBig (str "file:///p.png") 1024
      ⟨mkDataUrl (str "image/png") (str "NATBODY"), 1024, 512, str "image/png"⟩ rfl
    exact h
  · have h := claim4_amended.2.1 webEnvBig (str "J4") 1024 2000 1000
      ⟨mkDataUrl (str "image/jpeg") (str "WEBBODY"), 1024, 512⟩ rfl (by decide) rfl
    exact h
  · have h := claim4_amended.2.2 webEnvSmall (str "data:image/gif;base64,G") 1024
      500 400 ⟨str "data:image/gif;base64,G", 500, 400⟩ rfl (by decide) rfl
    exact h

/-- A file system read used by hook witnesses. -/
def fileEnvOk : FileEnv := ⟨fun _ => .ok (str "FDATA")⟩

/-- A 300×200 gallery asset with an inline base64 payload. -/
def assetSmall : PickerAsset :=
  ⟨str "file:///g.png", some (str "GDATA"), 300, 200, none, none⟩

/-- Claim C1 counterexample: the picker hook of `src/unnamed/part_002`
overrides the processed record's dimensions with the asset's pre-resize
2000×1000, so the surviving `AttachedImage` has `width = 2000`, which exceeds
the configured maximum dimension and is not the post-resize width (1024). -/
theorem claim1_counterexample :
    processAssetV2 nativeEnvBig (str "id1") assetBig =
      some ⟨str "id1", mkDataUrl (str "image/jpeg") (str "NATBODY"), str "image/jpeg",
            some 2000, some 1000, none, some 6⟩ ∧
    MAX_DIMENSION < 2000 := by
  exact ⟨rfl, by decide⟩

/-- Claim C1 amended: every `AttachedImage` produced by
`processImageForAttachment` or `processImageForAttachmentNative` satisfies
`fileSize ≤ MAX_FILE_SIZE`, `mimeType` supported, and width/height (when
present) ≤ `MAX_DIMENSION`; the picker hooks' `processAssets` guarantee only
`fileSize ≤ MAX_FILE_SIZE` (plus a supported MIME in the variant that
delegates to the native processor), because they store the asset's pre-resize
dimensions. -/
theorem claim1_amended :
    (∀ (env : WebEnv) (isWeb : Bool) (newId base64 : Str) (fn : Option Str)
      (img : AttachedImage),
      processImageForAttachment env isWeb newId base64 fn = .ok img →
      isSupportedImageType img.mimeType = true ∧
      (∀ s, img.fileSize = some s → s ≤ MAX_FILE_SIZE) ∧
      (∀ w, img.width = some w → w ≤ MAX_DIMENSION) ∧
      (∀ ht, img.height = some ht → ht ≤ MAX_DIMENSION)) ∧
    (∀ (env : NativeEnv) (newId uri : Str) (fn : Option Str) (img : AttachedImage),
      processImageForAttachmentNative env newId uri fn = .ok img →
      isSupportedImageType img.mimeType = true ∧
      (∀ s, img.fileSize = some s → s ≤ MAX_FILE_SIZE) ∧
      (∀ w, img.width = some w → w ≤ MAX_DIMENSION) ∧
      (∀ ht, img.height = some ht → ht ≤ MAX_DIMENSION)) ∧
    (∀ (fenv : FileEnv) (ids : Nat → Str) (assets : List PickerAsset)
      (img : AttachedImage),
      img ∈ processAssetsV1 fenv ids assets →
      ∀ s, img.fileSize = some s → s ≤ MAX_FILE_SIZE) ∧
    (∀ (env : NativeEnv) (ids : Nat → Str) (assets : List PickerAsset)
      (img : AttachedImage),
      img ∈ processAssetsV2 env ids assets →
      isSupportedImageType img.mimeType = true ∧
      ∀ s, img.fileSize = some s → s ≤ MAX_FILE_SIZE) := by
  refine ⟨processWeb_ok_inv, processNative_ok_inv, ?_, ?_⟩
  · intro fenv ids assets img hmem
    rw [processAssetsV1, List.mem_filterMap] at hmem
    obtain ⟨⟨i, a⟩, _, hsome⟩ := hmem
    have hok : processAssetV1 fenv (ids i) a = .ok img := by
      cases hpa : processAssetV1 fenv (ids i) a with
      | error e => rw [hpa] at hsome; exact absurd hsome (by simp [Except.toOption])
      | ok b =>
        rw [hpa] at hsome
        simp only [Except.toOption, Option.some.injEq] at hsome
        rw [hsome]
    exact processAssetV1_ok_fileSize fenv (ids i) a img hok
  · intro env ids assets img hmem
    rw [processAssetsV2, List.mem_filterMap] at hmem
    obtain ⟨⟨i, a⟩, _, hsome⟩ := hmem
    exact processAssetV2_some_inv env (ids i) a img hsome

/-- Claim C1 witness: concrete runs of each processing path, with the
invariant's bounds checked on the produced records. -/
theorem claim1_witness :
    (isSupportedImageType (str "image/jpeg") = true ∧ (3 : Nat) ≤ MAX_FILE_SIZE ∧
     (500 : Nat) ≤ MAX_DIMENSION ∧ (400 : Nat) ≤ MAX_DIMENSION) ∧
    ((6 : Nat) ≤ MAX_FILE_SIZE ∧ (500 : Nat) ≤ MAX_DIMENSION) ∧
    (4 : Nat) ≤ MAX_FILE_SIZE ∧
    (isSupportedImageType (str "image/jpeg") = true ∧ (6 : Nat) ≤ MAX_FILE_SIZE) := by
  have h1 := claim1_amended.1 webEnvSmall true (str "w1")
    (str "data:image/png;base64,AAAA") none
    ⟨str "w1", str "data:image/png;base64,AAAA", str "image/jpeg",
     some 500, some 400, none, some 3⟩ rfl
  have h2 := claim1_amended.2.1 nativeEnvSmall (str "n1") (str "file:///s2.jpg") none
    ⟨str "n1", mkDataUrl (str "image/jpeg") (str "NATBODY"), str "image/jpeg",
     some 500, some 400, none, some 6⟩ rfl
  have h3 := claim1_amended.2.2.1 fileEnvOk (fun _ => str "v1") [assetSmall]
    ⟨str "v1", mkDataUrl (str "image/png") (str "GDATA"), str "image/png",
     some 300, some 200, none, some 4⟩ (by decide)
  have h4 := claim1_amended.2.2.2 nativeEnvBig (fun _ => str "v2") [assetBig]
    ⟨str "v2", mkDataUrl (str "image/jpeg") (str "NATBODY"), str "image/jpeg",
     some 2000, some 1000, none, some 6⟩ (by decide)
  exact ⟨⟨h1.1, h1.2.1 3 rfl, h1.2.2.1 500 rfl, h1.2.2.2 400 rfl⟩,
    ⟨h2.2.1 6 rfl, h2.2.2.1 500 rfl⟩, h3 4 rfl, ⟨h4.1, h4.2 6 rfl⟩⟩

/-- Claim C6 counterexample: a `data:image/bmp` URI has an unsupported MIME
type, yet `processImageForAttachmentNative` returns a success record rather
than the unsupported-type error: the native path resizes first, which
transcodes the image to JPEG, and only then checks the (now supported)
output MIME. -/
theorem claim6_counterexample :
    isSupportedImageType (extractMimeType (str "data:image/bmp;base64,AAAA")) = false ∧
    processImageForAttachmentNative nativeEnvSmall (str "id6")
        (str "data:image/bmp;base64,AAAA") none =
      .ok ⟨str "id6", mkDataUrl (str "image/jpeg") (str "NATBODY"), str "image/jpeg",
           some 500, some 400, none, some 6⟩ := by
  exact ⟨by decide, rfl⟩

/-- Claim C6 amended: `processImageForAttachment` (web module) rejects an
unsupported MIME type immediately — the result is the unsupported-type error
for every environment, so no resize work is consulted; the native processor
instead resizes first, and the resized output's MIME type is always
supported, so its unsupported check never fires. -/
theorem claim6_amended :
    (∀ (env : WebEnv) (isWeb : Bool) (newId base64 : Str) (fn : Option Str),
      isSupportedImageType (extractMimeType base64) = false →
      processImageForAttachment env isWeb newId base64 fn =
        .error (str "Unsupported image type: " ++ extractMimeType base64)) ∧
    (∀ (env : NativeEnv) (uri : Str) (maxD : Nat) (r : NativeResized),
      resizeImageNative env uri maxD = .ok r →
      isSupportedImageType r.mimeType = true) := by
  constructor
  · intro env isWeb newId base64 fn hbad
    rw [processImageForAttachment, if_pos]
    rw [hbad]
    decide
  · intro env uri maxD r h
    rw [resizeImageNative_mimeType env uri maxD r h]
    exact nativeOutMime_supported uri

/-- Claim C6 witness: a TIFF data URL is rejected up front on the web path
regardless of the environment; a resized native result's MIME is supported. -/
theorem claim6_witness :
    processImageForAttachment webEnvFail true (str "id6w")
        (str "data:image/tiff;base64,AA") none =
      .error (str "Unsupported image type: " ++ extractMimeType (str "data:image/tiff;base64,AA")) ∧
    isSupportedImageType (str "image/png") = true := by
  constructor
  · exact claim6_amended.1 webEnvFail true (str "id6w") (str "data:image/tiff;base64,AA")
      none (by decide)
  · exact claim6_amended.2 nativeEnvSmall (str "file:///t.png") 1024
      ⟨mkDataUrl (str "image/png") (str "NATBODY"), 500, 400, str "image/png"⟩ rfl


/-- Claim C7 (code bug): a native payload whose estimated size is 2,097,153
bytes (≈2MB) is rejected — correctly, since the configured `MAX_FILE_SIZE` is
1MB — but the error message reports the limit as the hardcoded `5MB`, not the
configured 1MB (`Math.round(MAX_FILE_SIZE/1024/1024) = 1`).  The web error
message, by contrast, does report the configured limit (1024KB). -/
theorem claim7_bug :
    processImageForAttachmentNative nativeEnvHuge (str "id7") (str "file:///c.jpg") none =
      .error (str "Image too large: 2MB (max 5MB)") ∧
    jsRound MAX_FILE_SIZE (1024 * 1024) = 1 ∧
    natStr (jsRound MAX_FILE_SIZE 1024) = str "1024" := by
  refine ⟨?_, by decide, by decide⟩
  have hbody : (',' : Char) ∉ (List.replicate 2796203 'A' : Str) := by
    intro h
    rw [List.mem_replicate] at h
    exact absurd h.2 (by decide)
  have hres : resizeImageNative nativeEnvHuge (str "file:///c.jpg") MAX_DIMENSION =
      .ok ⟨mkDataUrl (str "image/jpeg") (List.replicate 2796203 'A'), 500, 400,
           str "image/jpeg"⟩ := rfl
  have hsupp : isSupportedImageType (str "image/jpeg") = true := by decide
  simp only [processImageForAttachmentNative, hres]
  rw [extractBase64Data_mkDataUrl (str "image/jpeg") _ (by decide) hbody,
    List.length_replicate]
  rw [if_neg (not_not_intro hsupp), if_pos (by decide)]
  exact congrArg Except.error (by decide)

/-- Claim C8 counterexample: on `"a,b,c"` the code returns the field between
the first and second commas (`"b"`), not the remainder after the first comma
(`"b,c"`) that the claim asserts. -/
theorem claim8_counterexample :
    extractBase64Data (str "a,b,c") = str "b" ∧ str "b" ≠ str "b,c" := by decide

/-- Claim C8 amended: `extractBase64Data` returns the whole string when it
contains no comma, and otherwise the segment between the first and the second
comma (`split(',')[1]`) — which equals the remainder after the first comma
only when that remainder contains no further comma, as in the spec's
examples. -/
theorem claim8_amended :
    (∀ l : Str, ',' ∉ l → extractBase64Data l = l) ∧
    (∀ l₁ l₂ : Str, ',' ∉ l₁ →
      extractBase64Data (l₁ ++ ',' :: l₂) = l₂.takeWhile (fun c => c ≠ ',')) := by
  exact ⟨extractBase64Data_no_comma, extractBase64Data_append⟩

/-- Claim C8 witness: the spec's two examples,
`extractBase64Data("data:image/png;base64,AAAA") = "AAAA"` and
`extractBase64Data("AAAA") = "AAAA"`. -/
theorem claim8_witness :
    extractBase64Data (str "AAAA") = str "AAAA" ∧
    extractBase64Data (str "data:image/png;base64" ++ ',' :: str "AAAA") = str "AAAA" := by
  constructor
  · exact claim8_amended.1 (str "AAAA") (by decide)
  · rw [claim8_amended.2 (str "data:image/png;base64") (str "AAAA") (by decide)]
    decide

/-- Claim C9 counterexample: on the web platform `createThumbnail` awaits
`resizeImageWeb` with no `try`/`catch`, so a failed image decode propagates
as the error — the original reference is not returned. -/
theorem claim9_counterexample :
    createThumbnail webEnvFail true (str "BROKEN") 200 =
      .error (str "Failed to load image") ∧
    Except.error (str "Failed to load image") ≠
      (Except.ok (str "BROKEN") : Except Str Str) := by
  exact ⟨rfl, fun h => Except.noConfusion h⟩

/-- Claim C9 amended: `createThumbnailNative` never propagates a resize
failure — it returns the original URI; web `createThumbnail` propagates the
resize error on the web platform, and returns the original only off-web
(where it does no work at all). -/
theorem claim9_amended :
    (∀ (env : NativeEnv) (uri : Str) (maxD : Nat) (e : Str),
      resizeImageNative env uri maxD = .error e →
      createThumbnailNative env uri maxD = uri) ∧
    (∀ (env : NativeEnv) (uri : Str) (maxD : Nat) (r : NativeResized),
      resizeImageNative env uri maxD = .ok r →
      createThumbnailNative env uri maxD = r.base64) ∧
    (∀ (env : WebEnv) (base64 : Str) (maxD : Nat) (e : Str),
      resizeImageWeb env base64 maxD = .error e →
      createThumbnail env true base64 maxD = .error e) ∧
    (∀ (env : WebEnv) (base64 : Str) (maxD : Nat),
      createThumbnail env false base64 maxD = .ok base64) := by
  refine ⟨?_, ?_, ?_, ?_⟩
  · intro env uri maxD e h
    rw [createThumbnailNative, h]
  · intro env uri maxD r h
    rw [createThumbnailNative, h]
  · intro env base64 maxD e h
    rw [createThumbnail, if_neg (by simp), h]
  · intro env base64 maxD
    rw [createThumbnail, if_pos (by simp)]

/-- Claim C9 witness: a native thumbnail over a failing decode returns the
original URI; a web thumbnail over a failing decode returns the load error. -/
theorem claim9_witness :
    createThumbnailNative nativeEnvFail (str "file:///orig.jpg") 200 =
      str "file:///orig.jpg" ∧
    createThumbnail webEnvFail true (str "WORIG") 200 =
      .error (str "Failed to load image") := by
  constructor
  · exact claim9_amended.1 nativeEnvFail (str "file:///orig.jpg") 200
      (str "Could not decode") rfl
  · exact claim9_amended.2.2.1 webEnvFail (str "WORIG") 200
      (str "Failed to load image") rfl

/-- Claim C10: for every non-`data:` URI, `getMimeTypeFromUri` returns one of
the four supported MIME types; consequently, for `file://` inputs whose
resize succeeds, the resized MIME is supported and
`processImageForAttachmentNative` can never return the unsupported-type
error. -/
theorem claim10_mime_safe :
    (∀ uri : Str, (str "data:").isPrefixOf uri = false →
      getMimeTypeFromUri uri ∈ SUPPORTED_TYPES) ∧
    (∀ (env : NativeEnv) (newId uri : Str) (fn : Option Str) (r : NativeResized),
      (str "file://").isPrefixOf uri = true →
      resizeImageNative env uri MAX_DIMENSION = .ok r →
      isSupportedImageType r.mimeType = true ∧
      ∀ m : Str, processImageForAttachmentNative env newId uri fn ≠
        .error (str "Unsupported image type: " ++ m)) := by
  constructor
  · intro uri h
    simp only [getMimeTypeFromUri, h, Bool.false_eq_true, if_false]
    split
    · decide
    · split
      · decide
      · split
        · decide
        · decide
  · intro env newId uri fn r _ hres
    have hsupp : isSupportedImageType r.mimeType = true := by
      rw [resizeImageNative_mimeType env uri MAX_DIMENSION r hres]
      exact nativeOutMime_supported uri
    refine ⟨hsupp, ?_⟩
    intro m hcontra
    simp only [processImageForAttachmentNative, hres] at hcontra
    rw [if_neg (not_not_intro hsupp)] at hcontra
    split at hcontra
    · rw [Except.error.injEq] at hcontra
      exact sizeMsg_ne_unsupportedMsg _ _ _ hcontra
    · exact Except.noConfusion hcontra

/-- Claim C10 witness: a `.webp` file URI maps into the supported set, and a
concrete `file://` JPEG run of the native processor cannot produce the
unsupported-type error. -/
theorem claim10_witness :
    getMimeTypeFromUri (str "file:///x.webp") ∈ SUPPORTED_TYPES ∧
    isSupportedImageType (str "image/jpeg") = true ∧
    processImageForAttachmentNative nativeEnvBig (str "idA") (str "file:///a2.jpg") none ≠
      .error (str "Unsupported image type: " ++ str "image/bmp") := by
  have h := claim10_mime_safe.2 nativeEnvBig (str "idA") (str "file:///a2.jpg") none
    ⟨mkDataUrl (str "image/jpeg") (str "NATBODY"), 1024, 512, str "image/jpeg"⟩
    (by decide) rfl
  exact ⟨claim10_mime_safe.1 (str "file:///x.webp") (by decide), h.1,
    h.2 (str "image/bmp")⟩
